import Mathlib

/-!
Shallow embedding of the goal-tracker core (src/src/app.ts).

Modelling conventions:
* A calendar date (TS `ISODate`, a `YYYY-MM-DD` string) is modelled as an
  integer counting days since 1970-01-01; `parseDate`/`formatDate` round-trip
  between the string and the local-midnight `Date`, so the integer day number
  is a faithful abstraction of both, and `addDays`/date comparison become
  integer arithmetic.
* The TS type `YesNo = 'yes' | 'no' | null` is `Option Ans` (`none` = null).
* JS weight values (`number | undefined`, always finite when present because
  the input handler filters non-finite input) are `Option ℚ`.
* JS `Record` objects are association lists; `{...m, [k]: v}` is `aset`
  (replace the first binding of `k` in place, or append), and `m[k]` is
  `alookup` (first binding wins).
* A persisted day record read back from JSON may lack fields, so the store
  holds `StoredDay` values with every field optional; `getDay` merges them
  over the defaults exactly as the source's object spreads do.  A JSON value
  of `null` and an absent key are collapsed to `none` *inside* the optional
  payloads where the source only ever distinguishes them through the merge.
* JS booleans read from possibly-partial records are used only in boolean
  contexts, where `undefined` behaves as `false`; `Option Bool` with
  `getD false` models this.
-/

/-- Answer to a yes/no question. The TS `YesNo` also includes `null`
("unanswered"), modelled below as `Option Ans`. -/
inductive Ans
  | yes
  | no
deriving DecidableEq

/-- TS `YesNo = 'yes' | 'no' | null`. -/
abbrev YesNo := Option Ans

/-- The five fixed diet-rule identifiers (TS `DietKey`). -/
inductive DietKey
  | nonKetoFruits
  | highCarbDairy
  | processedFoods
  | starchyVeggies
  | refinedCarbs
deriving DecidableEq

/-- Keys of `DIET_RULES`, in source order (labels are presentation only). -/
def DIET_RULES : List DietKey :=
  [.nonKetoFruits, .highCarbDairy, .processedFoods, .starchyVeggies, .refinedCarbs]

/-- TS `DietChecks extends Record<DietKey, YesNo>`. -/
abbrev DietChecks := DietKey → YesNo

/-- TS `interface DayRecord` (the in-memory, fully-populated shape that
`getDay` produces). -/
structure DayRecord where
  date : Int
  diet : DietChecks
  dietException : YesNo
  dessertPass : YesNo
  mealPass : YesNo
  weightMorning : Option ℚ
  weightNight : Option ℚ
  weightMorningMissed : Bool
  weightNightMissed : Bool
  weightLiftingDone : YesNo
  waterFastDone : YesNo

/-- A day record as held in `AppState.days`: it may have been persisted and
reloaded, so every field (and every diet key) can be absent. -/
structure StoredDay where
  date : Option Int := none
  diet : Option (DietKey → Option YesNo) := none
  dietException : Option YesNo := none
  dessertPass : Option YesNo := none
  mealPass : Option YesNo := none
  weightMorning : Option (Option ℚ) := none
  weightNight : Option (Option ℚ) := none
  weightMorningMissed : Option Bool := none
  weightNightMissed : Option Bool := none
  weightLiftingDone : Option YesNo := none
  waterFastDone : Option YesNo := none

/-- TS `interface WeekPlan`. -/
structure WeekPlan where
  dates : List Int
deriving DecidableEq

/-- TS `interface FastPlan`. -/
structure FastPlan where
  dates : List Int
deriving DecidableEq

/-- A month key `YYYY-MM` is modelled as the pair (year, month). -/
abbrev MonthKey := Int × Int

/-- TS `interface AppState`. -/
structure AppState where
  days : List (Int × StoredDay)
  weekPlans : List (Int × WeekPlan)
  fastPlans : List (MonthKey × FastPlan)
  trackingStart : Int
  confirmedWeeks : List (Int × Bool)
  confirmedMonths : List (MonthKey × Bool)

/-- TS `type BlockingOverlay`. -/
inductive BlockingOverlay
  | month (monthKey : MonthKey)
  | week (weekKey : Int)
  | yesterday (date : Int)
deriving DecidableEq

/-- TS `addDays` (calendar-day arithmetic on the integer day number). -/
def addDays (date : Int) (amount : Int) : Int := date + amount

/-- JS `Date.prototype.getDay` (0 = Sunday): day 0 of the epoch,
1970-01-01, was a Thursday (= 4), and `%` is the nonnegative remainder. -/
def jsGetDay (date : Int) : Int := (date + 4) % 7

/-- TS `getWeekStart`: move back to the week's Sunday. -/
def getWeekStart (date : Int) : Int := addDays date (-(jsGetDay date))

/-- TS `getWeekKey`. -/
def getWeekKey (date : Int) : Int := getWeekStart date

/-- Gregorian calendar conversion from a day number (days since 1970-01-01)
to (year, month, day), the standard era-based civil-from-days algorithm.
This realises what the source obtains from the JS `Date` object. -/
def civilFromDays (z0 : Int) : Int × Int × Int :=
  let z := z0 + 719468
  let era : Int := (if 0 ≤ z then z else z - 146096) / 146097
  let doe : Int := z - era * 146097
  let yoe : Int := (doe - doe / 1460 + doe / 36524 - doe / 146096) / 365
  let y : Int := yoe + era * 400
  let doy : Int := doe - (365 * yoe + yoe / 4 - yoe / 100)
  let mp : Int := (5 * doy + 2) / 153
  let d : Int := doy - (153 * mp + 2) / 5 + 1
  let m : Int := mp + (if mp < 10 then 3 else -9)
  (if m ≤ 2 then y + 1 else y, m, d)

/-- TS `getMonthKey`: the (year, month) of the date. -/
def getMonthKey (date : Int) : MonthKey :=
  ((civilFromDays date).1, (civilFromDays date).2.1)

/-- First binding of a key in an association list (JS `m[k]`). -/
def alookup {K V : Type} [DecidableEq K] : List (K × V) → K → Option V
  | [], _ => none
  | (k', v) :: rest, k => if k' = k then some v else alookup rest k

/-- JS `{...m, [k]: v}`: replace the first binding of `k` in place, or
append a new binding. -/
def aset {K V : Type} [DecidableEq K] : List (K × V) → K → V → List (K × V)
  | [], k, v => [(k, v)]
  | (k', v') :: rest, k, v =>
      if k' = k then (k', v) :: rest else (k', v') :: aset rest k v

/-- TS `emptyDiet`. -/
def emptyDiet : DietChecks := fun _ => none

/-- TS `createEmptyDay`. -/
def createEmptyDay (date : Int) : DayRecord :=
  { date := date
    diet := emptyDiet
    dietException := none
    dessertPass := none
    mealPass := none
    weightMorning := none
    weightNight := none
    weightMorningMissed := false
    weightNightMissed := false
    weightLiftingDone := none
    waterFastDone := none }

/-- View a fully-populated day record as a stored one (every field present);
this is the shape `updateDay` writes back. -/
def toStored (day : DayRecord) : StoredDay :=
  { date := some day.date
    diet := some (fun k => some (day.diet k))
    dietException := some day.dietException
    dessertPass := some day.dessertPass
    mealPass := some day.mealPass
    weightMorning := some day.weightMorning
    weightNight := some day.weightNight
    weightMorningMissed := some day.weightMorningMissed
    weightNightMissed := some day.weightNightMissed
    weightLiftingDone := some day.weightLiftingDone
    waterFastDone := some day.waterFastDone }

/-- The merge `{...createEmptyDay(date), ...stored, diet: {...emptyDiet(),
...stored.diet}}` performed by `getDay`: a present stored field overrides the
default, an absent one falls back to it. -/
def mergeDay (date : Int) (st : StoredDay) : DayRecord :=
  { date := st.date.getD date
    diet := fun k => ((st.diet.getD (fun _ => none)) k).getD none
    dietException := st.dietException.getD none
    dessertPass := st.dessertPass.getD none
    mealPass := st.mealPass.getD none
    weightMorning := st.weightMorning.getD none
    weightNight := st.weightNight.getD none
    weightMorningMissed := st.weightMorningMissed.getD false
    weightNightMissed := st.weightNightMissed.getD false
    weightLiftingDone := st.weightLiftingDone.getD none
    waterFastDone := st.waterFastDone.getD none }

/-- TS `getDay`. -/
def getDay (s : AppState) (date : Int) : DayRecord :=
  match alookup s.days date with
  | none => createEmptyDay date
  | some st => mergeDay date st

/-- TS `defaultState`; `today` stands for `formatDate(new Date())`. -/
def defaultState (today : Int) : AppState :=
  { days := []
    weekPlans := []
    fastPlans := []
    trackingStart := today
    confirmedWeeks := []
    confirmedMonths := []
    }

/-- Shape of `JSON.parse(raw) as Partial<AppState>`: every top-level field
may be absent. -/
structure PartialAppState where
  days : Option (List (Int × StoredDay)) := none
  weekPlans : Option (List (Int × WeekPlan)) := none
  fastPlans : Option (List (MonthKey × FastPlan)) := none
  trackingStart : Option Int := none
  confirmedWeeks : Option (List (Int × Bool)) := none
  confirmedMonths : Option (List (MonthKey × Bool)) := none

/-- The JSON value found under the storage key, as `loadState` discriminates
it: absent, failing `JSON.parse`, or parsed into a possibly-partial object. -/
inductive RawState
  | missing
  | unparseable
  | parsed (p : PartialAppState)

/-- TS `loadState`; `today` stands for `formatDate(new Date())`. -/
def loadState (raw : RawState) (today : Int) : AppState :=
  match raw with
  | .missing => defaultState today
  | .unparseable => defaultState today
  | .parsed p =>
      { days := p.days.getD []
        weekPlans := p.weekPlans.getD []
        fastPlans := p.fastPlans.getD []
        trackingStart := p.trackingStart.getD today
        confirmedWeeks := p.confirmedWeeks.getD []
        confirmedMonths := p.confirmedMonths.getD []
        }

/-- TS `updateDay`: apply `updater` to the raw stored record (or a fresh
empty day) and write the result back. -/
def updateDay (s : AppState) (date : Int) (updater : StoredDay → StoredDay) :
    AppState :=
  let current := (alookup s.days date).getD (toStored (createEmptyDay date))
  { s with days := aset s.days date (updater current) }

/-- TS `updateWeekPlan`. -/
def updateWeekPlan (s : AppState) (weekKey : Int) (dates : List Int) :
    AppState :=
  { s with
    weekPlans := aset s.weekPlans weekKey ⟨dates⟩
    confirmedWeeks := aset s.confirmedWeeks weekKey false }

/-- TS `updateFastPlan`. -/
def updateFastPlan (s : AppState) (monthKey : MonthKey) (dates : List Int) :
    AppState :=
  { s with
    fastPlans := aset s.fastPlans monthKey ⟨dates⟩
    confirmedMonths := aset s.confirmedMonths monthKey false }

/-- TS `confirmWeekPlan`. -/
def confirmWeekPlan (s : AppState) (weekKey : Int) : AppState :=
  { s with confirmedWeeks := aset s.confirmedWeeks weekKey true }

/-- TS `confirmMonthPlan`. -/
def confirmMonthPlan (s : AppState) (monthKey : MonthKey) : AppState :=
  { s with confirmedMonths := aset s.confirmedMonths monthKey true }

/-- TS `setDietValue`: `{...day, diet: {...day.diet, [key]: value}}` on the
raw stored record (spreading an absent `day.diet` contributes nothing). -/
def setDietValue (s : AppState) (date : Int) (key : DietKey) (value : YesNo) :
    AppState :=
  updateDay s date (fun day =>
    { day with
      diet := some (fun k =>
        if k = key then some value else (day.diet.getD (fun _ => none)) k) })

/-- The `YesNo`-valued day fields. TS `setDayValue` is typed over every
non-diet key of `DayRecord`, but its only call sites (the yes/no widgets)
pass exactly these five keys with a `YesNo` value. -/
inductive DayYesNoKey
  | dietException
  | dessertPass
  | mealPass
  | weightLiftingDone
  | waterFastDone
deriving DecidableEq

/-- TS `setDayValue` at its call sites: `{...day, [key]: value}`. -/
def setDayValue (s : AppState) (date : Int) (key : DayYesNoKey)
    (value : YesNo) : AppState :=
  updateDay s date (fun day =>
    match key with
    | .dietException => { day with dietException := some value }
    | .dessertPass => { day with dessertPass := some value }
    | .mealPass => { day with mealPass := some value }
    | .weightLiftingDone => { day with weightLiftingDone := some value }
    | .waterFastDone => { day with waterFastDone := some value })

/-- TS `'weightMorning' | 'weightNight'`. -/
inductive WeightKey
  | morning
  | night
deriving DecidableEq

/-- TS `setWeightValue`: writes the (possibly cleared) value and, when a
defined value is written, also writes `false` to the missed flag; otherwise
the flag keeps its stored reading. -/
def setWeightValue (s : AppState) (date : Int) (key : WeightKey)
    (value : Option ℚ) : AppState :=
  updateDay s date (fun day =>
    match key with
    | .morning =>
        { day with
          weightMorning := some value
          weightMorningMissed :=
            if value.isSome then some false else day.weightMorningMissed }
    | .night =>
        { day with
          weightNight := some value
          weightNightMissed :=
            if value.isSome then some false else day.weightNightMissed })

/-- TS `toggleWeightMissed`: flip the missed flag (an absent flag reads as
`false`); turning it on clears the weight value, turning it off keeps it. -/
def toggleWeightMissed (s : AppState) (date : Int) (key : WeightKey) :
    AppState :=
  updateDay s date (fun day =>
    match key with
    | .morning =>
        let nextMissed := !(day.weightMorningMissed.getD false)
        { day with
          weightMorningMissed := some nextMissed
          weightMorning :=
            some (if nextMissed then none else day.weightMorning.getD none) }
    | .night =>
        let nextMissed := !(day.weightNightMissed.getD false)
        { day with
          weightNightMissed := some nextMissed
          weightNight :=
            some (if nextMissed then none else day.weightNight.getD none) })

/-- TS `dietRulesAnswered`: every diet rule has a non-null answer. -/
def dietRulesAnswered (day : DayRecord) : Bool :=
  DIET_RULES.all (fun rule => (day.diet rule).isSome)

/-- TS `isLiftingDay`. -/
def isLiftingDay (s : AppState) (date : Int) : Bool :=
  match alookup s.weekPlans (getWeekKey date) with
  | some plan => plan.dates.contains date
  | none => false

/-- TS `isFastDay`. -/
def isFastDay (s : AppState) (date : Int) : Bool :=
  match alookup s.fastPlans (getMonthKey date) with
  | some plan => plan.dates.contains date
  | none => false

/-- TS `isDayComplete`. -/
def isDayComplete (s : AppState) (day : DayRecord) (date : Int) : Bool :=
  let dietExceptionSet := day.dietException.isSome
  let dietNeedsRules := !(day.dietException == some Ans.yes)
  let dietRulesComplete := !dietNeedsRules || dietRulesAnswered day
  let passesAnswered :=
    !dietNeedsRules || (day.dessertPass.isSome && day.mealPass.isSome)
  let dietSectionComplete :=
    dietExceptionSet && dietRulesComplete && passesAnswered
  let weightMorningSet := day.weightMorning.isSome || day.weightMorningMissed
  let weightNightSet := day.weightNight.isSome || day.weightNightMissed
  let weightsComplete := weightMorningSet && weightNightSet
  let liftingRequired := isLiftingDay s date
  let liftingComplete := !liftingRequired || day.weightLiftingDone.isSome
  let fastRequired := isFastDay s date
  let fastComplete := !fastRequired || day.waterFastDone.isSome
  dietSectionComplete && weightsComplete && liftingComplete && fastComplete

/-- TS `isWeekPlanComplete`: `plan?.dates.length === 3`. -/
def isWeekPlanComplete (s : AppState) (weekKey : Int) : Bool :=
  match alookup s.weekPlans weekKey with
  | some plan => plan.dates.length == 3
  | none => false

/-- TS `isWeekPlanConfirmed`: `Boolean(confirmedWeeks[weekKey])`. -/
def isWeekPlanConfirmed (s : AppState) (weekKey : Int) : Bool :=
  (alookup s.confirmedWeeks weekKey).getD false

/-- TS `isMonthPlanComplete`. -/
def isMonthPlanComplete (s : AppState) (monthKey : MonthKey) : Bool :=
  match alookup s.fastPlans monthKey with
  | some plan => plan.dates.length == 3
  | none => false

/-- TS `isMonthPlanConfirmed`. -/
def isMonthPlanConfirmed (s : AppState) (monthKey : MonthKey) : Bool :=
  (alookup s.confirmedMonths monthKey).getD false

/-- TS `getBlockingOverlay`; `today` stands for `new Date()`. -/
def getBlockingOverlay (s : AppState) (today : Int) :
    Option BlockingOverlay :=
  let currentMonthKey := getMonthKey today
  if !isMonthPlanComplete s currentMonthKey ||
      !isMonthPlanConfirmed s currentMonthKey then
    some (.month currentMonthKey)
  else
    let currentWeekKey := getWeekKey today
    if !isWeekPlanComplete s currentWeekKey ||
        !isWeekPlanConfirmed s currentWeekKey then
      some (.week currentWeekKey)
    else
      let yesterday := addDays today (-1)
      if yesterday < s.trackingStart then
        none
      else if isDayComplete s (getDay s yesterday) yesterday then
        none
      else
        some (.yesterday yesterday)

/-- TS `'dessertPass' | 'mealPass'`. -/
inductive PassKey
  | dessertPass
  | mealPass
deriving DecidableEq

/-- The raw stored pass field selected by a `PassKey`, flattened to the value
the source compares against `'yes'` (absent and null both fail that check). -/
def storedPass (st : StoredDay) : PassKey → YesNo
  | .dessertPass => st.dessertPass.getD none
  | .mealPass => st.mealPass.getD none

/-- TS `getPassConflict`: walk `Object.keys(days)`, skip the queried date and
dates of other weeks, and return the first date whose pass field is `'yes'`. -/
def getPassConflict (s : AppState) (date : Int) (key : PassKey) :
    Option Int :=
  let weekKey := getWeekKey date
  (s.days.map Prod.fst).find? (fun dayKey =>
    decide (dayKey ≠ date) && decide (getWeekKey dayKey = weekKey) &&
      decide ((alookup s.days dayKey).map (fun st => storedPass st key)
        = some (some Ans.yes)))

/-- TS `getDailyAverage`. -/
def getDailyAverage (day : DayRecord) : Option ℚ :=
  let morning := day.weightMorning
  let night := day.weightNight
  if morning.isSome && night.isSome then
    some ((morning.getD 0 + night.getD 0) / 2)
  else if morning.isSome then morning
  else if night.isSome then night
  else none

/-- TS `buildDateRange`: the `days` calendar dates ending at `endDate`. -/
def buildDateRange (endDate : Int) (days : Nat) : List Int :=
  (List.range days).map
    (fun index : Nat => addDays endDate ((index : Int) - ((days : Int) - 1)))

/-- TS `getRollingAverage`. -/
def getRollingAverage (s : AppState) (currentDate : Int) (windowSize : Nat) :
    Option ℚ :=
  let range := buildDateRange currentDate windowSize
  let values := (range.map (fun date => getDailyAverage (getDay s date))).filterMap id
  if values.isEmpty then none
  else some (values.foldl (· + ·) 0 / (values.length : ℚ))

/-- The mutual-exclusion invariant for one stored day: a present (defined)
weight value and a set missed flag never coexist, on either of
morning/night. -/
def weightInv (st : StoredDay) : Bool :=
  !((st.weightMorning.getD none).isSome && st.weightMorningMissed.getD false)
    && !((st.weightNight.getD none).isSome && st.weightNightMissed.getD false)

/-- The mutual-exclusion invariant over every stored day of a state. -/
def stateWeightInv (s : AppState) : Bool :=
  s.days.all (fun e => weightInv e.2)

/-- The stored missed flag selected by a `WeightKey`. -/
def storedMissed (st : StoredDay) : WeightKey → Option Bool
  | .morning => st.weightMorningMissed
  | .night => st.weightNightMissed

/-- The stored weight field selected by a `WeightKey`. -/
def storedWeight (st : StoredDay) : WeightKey → Option (Option ℚ)
  | .morning => st.weightMorning
  | .night => st.weightNight

/-- A state whose plans for the week (key `-4`) and month (`1970-01`) of
day 0 are complete and confirmed, with tracking starting on day 0. -/
def stateFull : AppState :=
  { days := []
    weekPlans := [(-4, ⟨[1, 2, 3]⟩)]
    fastPlans := [((1970, 1), ⟨[9, 10, 11]⟩)]
    trackingStart := 0
    confirmedWeeks := [(-4, true)]
    confirmedMonths := [((1970, 1), true)] }

/-- Same plans as `stateFull` but tracking started well before day 0. -/
def stateFullEarly : AppState := { stateFull with trackingStart := -10 }

/-- A stored day whose only present field is a morning weight of 150. -/
def dayW : StoredDay := { weightMorning := some (some 150) }

/-- A stored day whose only present field is `dessertPass = yes`. -/
def dayPass : StoredDay := { dessertPass := some (some Ans.yes) }

/-- A state with one weigh-in, on day 3. -/
def stateOneWeight : AppState := { defaultState 0 with days := [(3, dayW)] }

/-- A state with `dessertPass = yes` on day 5 (week key 3) and on day 1
(week key -4). -/
def statePasses : AppState :=
  { defaultState 0 with days := [(5, dayPass), (1, dayPass)] }

/-- A parsed persisted object that has a non-empty `days` map but no
`trackingStart` field. -/
def pBad : PartialAppState := { days := some [(0, dayPass)] }

/-- A fully-populated day using the diet exception, with a morning weight
and the night weigh-in marked missed. -/
def dayException : DayRecord :=
  { createEmptyDay 5 with
    dietException := some Ans.yes
    weightMorning := some 150
    weightNightMissed := true }

/-- A fully-populated day with both weigh-ins present. -/
def dayBoth : DayRecord :=
  { createEmptyDay 5 with weightMorning := some 150, weightNight := some 152 }

theorem alookup_aset_self {K V : Type} [DecidableEq K] (l : List (K × V))
    (k : K) (v : V) : alookup (aset l k v) k = some v := by
  induction l with
  | nil => simp [aset, alookup]
  | cons e rest ih =>
    obtain ⟨k', v'⟩ := e
    by_cases h : k' = k <;> simp [aset, alookup, h, ih]

theorem alookup_aset_ne {K V : Type} [DecidableEq K] (l : List (K × V))
    (k k' : K) (v : V) (h : k' ≠ k) :
    alookup (aset l k v) k' = alookup l k' := by
  induction l with
  | nil =>
    simp only [aset, alookup]
    rw [if_neg (fun hh => h hh.symm)]
  | cons e rest ih =>
    obtain ⟨k₀, v₀⟩ := e
    by_cases h0 : k₀ = k
    · subst h0
      simp only [aset, if_pos rfl, alookup]
      rw [if_neg (fun hh => h hh.symm), if_neg (fun hh => h hh.symm)]
    · simp only [aset, if_neg h0, alookup, ih]

theorem mem_of_alookup_eq_some {K V : Type} [DecidableEq K]
    {l : List (K × V)} {k : K} {v : V} (h : alookup l k = some v) :
    (k, v) ∈ l := by
  induction l with
  | nil => simp [alookup] at h
  | cons e rest ih =>
    obtain ⟨k', v'⟩ := e
    by_cases hk : k' = k
    · subst hk
      simp [alookup] at h
      simp [h]
    · simp [alookup, hk] at h
      exact List.mem_cons_of_mem _ (ih h)

theorem mem_aset {K V : Type} [DecidableEq K] {l : List (K × V)} {k : K}
    {v : V} {e : K × V} (h : e ∈ aset l k v) : e = (k, v) ∨ e ∈ l := by
  induction l with
  | nil => simp [aset] at h; simp [h]
  | cons e₀ rest ih =>
    obtain ⟨k₀, v₀⟩ := e₀
    by_cases h0 : k₀ = k
    · subst h0
      simp [aset] at h
      rcases h with h | h
      · exact Or.inl (by simp [h])
      · exact Or.inr (List.mem_cons_of_mem _ h)
    · simp [aset, h0] at h
      rcases h with h | h
      · exact Or.inr (by simp [h])
      · rcases ih h with h' | h'
        · exact Or.inl h'
        · exact Or.inr (List.mem_cons_of_mem _ h')

theorem find?_eq_some_of_unique {α : Type} (p : α → Bool) (l : List α)
    (a : α) (ha : a ∈ l) (hp : p a = true)
    (huniq : ∀ x ∈ l, p x = true → x = a) : l.find? p = some a := by
  induction l with
  | nil => cases ha
  | cons x rest ih =>
    by_cases hx : p x = true
    · have hxa := huniq x (List.mem_cons_self x rest) hx
      rw [List.find?_cons_of_pos _ hx, hxa]
    · have hxa : x ≠ a := fun hh => hx (hh ▸ hp)
      have ha' : a ∈ rest := by
        rcases List.mem_cons.mp ha with h | h
        · exact absurd h.symm hxa
        · exact h
      rw [List.find?_cons_of_neg _ (by simpa using hx)]
      exact ih ha' (fun y hy hpy => huniq y (List.mem_cons_of_mem _ hy) hpy)

theorem foldl_add_eq_add_sum (l : List ℚ) (a : ℚ) :
    l.foldl (· + ·) a = a + l.sum := by
  induction l generalizing a with
  | nil => simp
  | cons x rest ih =>
    rw [List.foldl_cons, ih, List.sum_cons]
    ring

example : getBlockingOverlay (defaultState 0) 0 = some (.month (1970, 1)) := by
  decide
example : getBlockingOverlay stateFull 0 = none := by decide
example : getBlockingOverlay stateFullEarly 0 = some (.yesterday (-1)) := by
  decide
example :
    ((buildDateRange 5 7).map
      (fun d => getDailyAverage (getDay stateOneWeight d))).filterMap id
      = [150] := by decide
example : getRollingAverage stateOneWeight 5 2 = none := by decide
example : getPassConflict statePasses 2 .dessertPass = some 1 := by decide
example : getPassConflict statePasses 1 .dessertPass = none := by decide
example : getPassConflict statePasses 8 .dessertPass = some 5 := by decide
example : isDayComplete (defaultState 0) dayException 5 = true := by decide
example :
    getDailyAverage { dayException with weightNight := some 152 } = some 151 := by
  norm_num [getDailyAverage, dayException]
example : (loadState (.parsed pBad) 7).days = [(0, dayPass)] := rfl
example : (loadState (.parsed pBad) 7).trackingStart = 7 := rfl

example : civilFromDays 0 = (1970, 1, 1) := by decide
example : civilFromDays 30 = (1970, 1, 31) := by decide
example : civilFromDays 31 = (1970, 2, 1) := by decide
example : civilFromDays 365 = (1971, 1, 1) := by decide
example : civilFromDays (-1) = (1969, 12, 31) := by decide
example : civilFromDays 19884 = (2024, 6, 10) := by decide
example : getWeekKey 0 = -4 := by decide
example : getWeekKey (-1) = -4 := by decide
example : getWeekKey 3 = 3 := by decide

/-- Claim C2: whenever the current month's plan is complete and confirmed and
the current week's plan is complete and confirmed, a yesterday falling
strictly before `trackingStart` makes `getBlockingOverlay` return no gate,
regardless of the state of yesterday's day record. -/
theorem getBlockingOverlay_preTrackingStart (s : AppState) (today : Int)
    (hmc : isMonthPlanComplete s (getMonthKey today) = true)
    (hmf : isMonthPlanConfirmed s (getMonthKey today) = true)
    (hwc : isWeekPlanComplete s (getWeekKey today) = true)
    (hwf : isWeekPlanConfirmed s (getWeekKey today) = true)
    (hy : addDays today (-1) < s.trackingStart) :
    getBlockingOverlay s today = none := by
  simp [getBlockingOverlay, hmc, hmf, hwc, hwf, hy]

/-- Witness for C2: in `stateFull` on day 0 both plans are satisfied and
yesterday (day -1) precedes `trackingStart` (day 0), so the gate is `none`. -/
theorem getBlockingOverlay_preTrackingStart_witness :
    getBlockingOverlay stateFull 0 = none :=
  getBlockingOverlay_preTrackingStart stateFull 0 (by decide) (by decide)
    (by decide) (by decide) (by decide)

/-- Claim C4: `getDailyAverage` is the arithmetic mean when both weights are
present, the single present value when exactly one is, and `none` (never 0)
when neither is. -/
theorem getDailyAverage_cases (day : DayRecord) :
    (∀ m n : ℚ, day.weightMorning = some m → day.weightNight = some n →
      getDailyAverage day = some ((m + n) / 2))
    ∧ (∀ m : ℚ, day.weightMorning = some m → day.weightNight = none →
      getDailyAverage day = some m)
    ∧ (∀ n : ℚ, day.weightMorning = none → day.weightNight = some n →
      getDailyAverage day = some n)
    ∧ (day.weightMorning = none → day.weightNight = none →
      getDailyAverage day = none) := by
  refine ⟨?_, ?_, ?_, ?_⟩
  · intro m n hm hn
    simp [getDailyAverage, hm, hn]
  · intro m hm hn
    simp [getDailyAverage, hm, hn]
  · intro n hm hn
    simp [getDailyAverage, hm, hn]
  · intro hm hn
    simp [getDailyAverage, hm, hn]

/-- Witness for C4: with morning 150 and night 152 the daily average is their
arithmetic mean. -/
theorem getDailyAverage_cases_witness :
    getDailyAverage dayBoth = some ((150 + 152) / 2) :=
  (getDailyAverage_cases dayBoth).1 150 152 rfl rfl

/-- Claim C10: `getDay` of an unrecorded date is the fully-unanswered default
day, and `getDay` of a stored (possibly partial) record is the stored values
merged over those defaults, fieldwise, so every field (including all five
diet keys) is defined. -/
theorem getDay_defaults (s : AppState) (date : Int) :
    (alookup s.days date = none → getDay s date = createEmptyDay date)
    ∧ (∀ st, alookup s.days date = some st →
        (getDay s date).date = st.date.getD date
        ∧ (∀ k, (getDay s date).diet k
            = ((st.diet.getD (fun _ => none)) k).getD none)
        ∧ (getDay s date).dietException = st.dietException.getD none
        ∧ (getDay s date).dessertPass = st.dessertPass.getD none
        ∧ (getDay s date).mealPass = st.mealPass.getD none
        ∧ (getDay s date).weightMorning = st.weightMorning.getD none
        ∧ (getDay s date).weightNight = st.weightNight.getD none
        ∧ (getDay s date).weightMorningMissed
            = st.weightMorningMissed.getD false
        ∧ (getDay s date).weightNightMissed = st.weightNightMissed.getD false
        ∧ (getDay s date).weightLiftingDone = st.weightLiftingDone.getD none
        ∧ (getDay s date).waterFastDone = st.waterFastDone.getD none) := by
  constructor
  · intro h
    simp [getDay, h]
  · intro st h
    simp [getDay, h, mergeDay]

/-- Witness for C10: the stored day at date 3 of `stateOneWeight` has only a
morning weight, and `getDay` fills in the remaining fields with defaults
(shown here on a diet key, the diet exception and the morning weight). -/
theorem getDay_defaults_witness :
    (getDay stateOneWeight 3).weightMorning = dayW.weightMorning.getD none
    ∧ (getDay stateOneWeight 3).diet DietKey.nonKetoFruits
        = ((dayW.diet.getD (fun _ => none)) DietKey.nonKetoFruits).getD none
    ∧ (getDay stateOneWeight 3).dietException = dayW.dietException.getD none :=
  ⟨((getDay_defaults stateOneWeight 3).2 dayW rfl).2.2.2.2.2.1,
   ((getDay_defaults stateOneWeight 3).2 dayW rfl).2.1 DietKey.nonKetoFruits,
   ((getDay_defaults stateOneWeight 3).2 dayW rfl).2.2.1⟩

/-- Claim C8: replacing a week's (month's) plan stores exactly the new date
list and clears that key's confirmation flag — even if the list is unchanged;
other keys' confirmations are untouched; the confirm operations are the only
ones that set a flag, and they touch nothing else; day mutations leave both
confirmation maps entirely unchanged. -/
theorem planMutation_confirmation :
    (∀ (s : AppState) (wk : Int) (dates : List Int),
      alookup (updateWeekPlan s wk dates).weekPlans wk = some ⟨dates⟩
      ∧ isWeekPlanConfirmed (updateWeekPlan s wk dates) wk = false
      ∧ (∀ k, k ≠ wk → alookup (updateWeekPlan s wk dates).confirmedWeeks k
          = alookup s.confirmedWeeks k)
      ∧ (updateWeekPlan s wk dates).confirmedMonths = s.confirmedMonths)
    ∧ (∀ (s : AppState) (mk : MonthKey) (dates : List Int),
      alookup (updateFastPlan s mk dates).fastPlans mk = some ⟨dates⟩
      ∧ isMonthPlanConfirmed (updateFastPlan s mk dates) mk = false
      ∧ (∀ k, k ≠ mk → alookup (updateFastPlan s mk dates).confirmedMonths k
          = alookup s.confirmedMonths k)
      ∧ (updateFastPlan s mk dates).confirmedWeeks = s.confirmedWeeks)
    ∧ (∀ (s : AppState) (wk : Int),
      isWeekPlanConfirmed (confirmWeekPlan s wk) wk = true
      ∧ (∀ k, k ≠ wk → alookup (confirmWeekPlan s wk).confirmedWeeks k
          = alookup s.confirmedWeeks k)
      ∧ (confirmWeekPlan s wk).weekPlans = s.weekPlans
      ∧ (confirmWeekPlan s wk).confirmedMonths = s.confirmedMonths)
    ∧ (∀ (s : AppState) (mk : MonthKey),
      isMonthPlanConfirmed (confirmMonthPlan s mk) mk = true
      ∧ (∀ k, k ≠ mk → alookup (confirmMonthPlan s mk).confirmedMonths k
          = alookup s.confirmedMonths k)
      ∧ (confirmMonthPlan s mk).fastPlans = s.fastPlans
      ∧ (confirmMonthPlan s mk).confirmedWeeks = s.confirmedWeeks)
    ∧ (∀ (s : AppState) (date : Int) (f : StoredDay → StoredDay),
      (updateDay s date f).confirmedWeeks = s.confirmedWeeks
      ∧ (updateDay s date f).confirmedMonths = s.confirmedMonths) := by
  refine ⟨?_, ?_, ?_, ?_, ?_⟩
  · intro s wk dates
    refine ⟨?_, ?_, ?_, rfl⟩
    · simp [updateWeekPlan, alookup_aset_self]
    · simp [updateWeekPlan, isWeekPlanConfirmed, alookup_aset_self]
    · intro k hk
      simp [updateWeekPlan, alookup_aset_ne _ _ _ _ hk]
  · intro s mk dates
    refine ⟨?_, ?_, ?_, rfl⟩
    · simp [updateFastPlan, alookup_aset_self]
    · simp [updateFastPlan, isMonthPlanConfirmed, alookup_aset_self]
    · intro k hk
      simp [updateFastPlan, alookup_aset_ne _ _ _ _ hk]
  · intro s wk
    refine ⟨?_, ?_, rfl, rfl⟩
    · simp [confirmWeekPlan, isWeekPlanConfirmed, alookup_aset_self]
    · intro k hk
      simp [confirmWeekPlan, alookup_aset_ne _ _ _ _ hk]
  · intro s mk
    refine ⟨?_, ?_, rfl, rfl⟩
    · simp [confirmMonthPlan, isMonthPlanConfirmed, alookup_aset_self]
    · intro k hk
      simp [confirmMonthPlan, alookup_aset_ne _ _ _ _ hk]
  · intro s date f
    exact ⟨rfl, rfl⟩

/-- Witness for C8: rewriting the week plan of key -4 with its exact current
dates still clears its confirmation, and leaves key 9's entry alone. -/
theorem planMutation_confirmation_witness :
    isWeekPlanConfirmed (updateWeekPlan stateFull (-4) [1, 2, 3]) (-4) = false
    ∧ alookup (updateWeekPlan stateFull (-4) [1, 2, 3]).confirmedWeeks 9
        = alookup stateFull.confirmedWeeks 9 :=
  ⟨(planMutation_confirmation.1 stateFull (-4) [1, 2, 3]).2.1,
   (planMutation_confirmation.1 stateFull (-4) [1, 2, 3]).2.2.1 9 (by decide)⟩

/-- Claim C3, as stated, is false on the code: a persisted value that parses
to an object lacking `trackingStart` but carrying a non-empty `days` map is
not replaced by a freshly initialized default — the parsed maps are kept. -/
theorem loadState_fallback_cex :
    pBad.trackingStart = none
    ∧ (loadState (.parsed pBad) 7).days ≠ (defaultState 7).days := by
  refine ⟨rfl, ?_⟩
  intro h
  have hlen := congrArg List.length h
  simp [loadState, pBad, defaultState] at hlen

/-- Claim C3 (amended): a missing or unparseable persisted value yields the
freshly initialized default state; a parsed object lacking `trackingStart`
gets `trackingStart` set to the current date while every other field keeps
the parsed value (absent fields default to empty). In all cases recovery is
silent — `loadState` totally returns a state. -/
theorem loadState_fallback (today : Int) :
    loadState .missing today = defaultState today
    ∧ loadState .unparseable today = defaultState today
    ∧ (∀ p : PartialAppState, p.trackingStart = none →
        (loadState (.parsed p) today).trackingStart = today
        ∧ (loadState (.parsed p) today).days = p.days.getD []
        ∧ (loadState (.parsed p) today).weekPlans = p.weekPlans.getD []
        ∧ (loadState (.parsed p) today).fastPlans = p.fastPlans.getD []
        ∧ (loadState (.parsed p) today).confirmedWeeks
            = p.confirmedWeeks.getD []
        ∧ (loadState (.parsed p) today).confirmedMonths
            = p.confirmedMonths.getD []) := by
  refine ⟨rfl, rfl, ?_⟩
  intro p hp
  simp [loadState, hp]

/-- Witness for C3 (amended): loading `pBad` (no `trackingStart`, non-empty
`days`) on day 7 sets `trackingStart` to 7 and keeps the parsed days. -/
theorem loadState_fallback_witness :
    (loadState (.parsed pBad) 7).trackingStart = 7
    ∧ (loadState (.parsed pBad) 7).days = pBad.days.getD [] :=
  ⟨((loadState_fallback 7).2.2 pBad rfl).1,
   ((loadState_fallback 7).2.2 pBad rfl).2.1⟩

/-- Claim C1, as stated, is false on the code: in `stateFull` on day 0 the
current month's and week's plans are complete and confirmed and yesterday
(day -1) is incomplete, yet the gate is `none` rather than
`PREVIOUS_DAY_REQUIRED`, because yesterday precedes `trackingStart`. -/
theorem getBlockingOverlay_priority_cex :
    (isMonthPlanComplete stateFull (getMonthKey 0)
      && isMonthPlanConfirmed stateFull (getMonthKey 0)) = true
    ∧ (isWeekPlanComplete stateFull (getWeekKey 0)
      && isWeekPlanConfirmed stateFull (getWeekKey 0)) = true
    ∧ isDayComplete stateFull (getDay stateFull (addDays 0 (-1)))
        (addDays 0 (-1)) = false
    ∧ getBlockingOverlay stateFull 0 = none
    ∧ getBlockingOverlay stateFull 0
        ≠ some (.yesterday (addDays 0 (-1))) := by
  decide

/-- Claim C1 (amended): `getBlockingOverlay` follows strict priority — an
unsatisfied (complete-and-confirmed) current-month plan always yields the
month gate; else an unsatisfied current-week plan yields the week gate; else
an incomplete yesterday *on or after trackingStart* yields the previous-day
gate; else (yesterday exempt or complete) there is no gate. Lower-priority
checks are never the result while a higher-priority one fails. -/
theorem getBlockingOverlay_priority (s : AppState) (today : Int) :
    ((isMonthPlanComplete s (getMonthKey today)
        && isMonthPlanConfirmed s (getMonthKey today)) = false →
      getBlockingOverlay s today = some (.month (getMonthKey today)))
    ∧ ((isMonthPlanComplete s (getMonthKey today)
        && isMonthPlanConfirmed s (getMonthKey today)) = true →
       (isWeekPlanComplete s (getWeekKey today)
        && isWeekPlanConfirmed s (getWeekKey today)) = false →
      getBlockingOverlay s today = some (.week (getWeekKey today)))
    ∧ ((isMonthPlanComplete s (getMonthKey today)
        && isMonthPlanConfirmed s (getMonthKey today)) = true →
       (isWeekPlanComplete s (getWeekKey today)
        && isWeekPlanConfirmed s (getWeekKey today)) = true →
       ¬ addDays today (-1) < s.trackingStart →
       isDayComplete s (getDay s (addDays today (-1)))
         (addDays today (-1)) = false →
      getBlockingOverlay s today = some (.yesterday (addDays today (-1))))
    ∧ ((isMonthPlanComplete s (getMonthKey today)
        && isMonthPlanConfirmed s (getMonthKey today)) = true →
       (isWeekPlanComplete s (getWeekKey today)
        && isWeekPlanConfirmed s (getWeekKey today)) = true →
       (addDays today (-1) < s.trackingStart
        ∨ isDayComplete s (getDay s (addDays today (-1)))
            (addDays today (-1)) = true) →
      getBlockingOverlay s today = none) := by
  refine ⟨?_, ?_, ?_, ?_⟩
  · intro h
    have ha : (!isMonthPlanComplete s (getMonthKey today)
        || !isMonthPlanConfirmed s (getMonthKey today)) = true := by
      rw [← Bool.not_and, h]
      rfl
    simp [getBlockingOverlay, ha]
  · intro hm hw
    have ha : (!isMonthPlanComplete s (getMonthKey today)
        || !isMonthPlanConfirmed s (getMonthKey today)) = false := by
      rw [← Bool.not_and, hm]
      rfl
    have hb : (!isWeekPlanComplete s (getWeekKey today)
        || !isWeekPlanConfirmed s (getWeekKey today)) = true := by
      rw [← Bool.not_and, hw]
      rfl
    simp [getBlockingOverlay, ha, hb]
  · intro hm hw hy hd
    have ha : (!isMonthPlanComplete s (getMonthKey today)
        || !isMonthPlanConfirmed s (getMonthKey today)) = false := by
      rw [← Bool.not_and, hm]
      rfl
    have hb : (!isWeekPlanComplete s (getWeekKey today)
        || !isWeekPlanConfirmed s (getWeekKey today)) = false := by
      rw [← Bool.not_and, hw]
      rfl
    simp [getBlockingOverlay, ha, hb, hy, hd]
  · intro hm hw hor
    have ha : (!isMonthPlanComplete s (getMonthKey today)
        || !isMonthPlanConfirmed s (getMonthKey today)) = false := by
      rw [← Bool.not_and, hm]
      rfl
    have hb : (!isWeekPlanComplete s (getWeekKey today)
        || !isWeekPlanConfirmed s (getWeekKey today)) = false := by
      rw [← Bool.not_and, hw]
      rfl
    rcases hor with hy | hd
    · simp [getBlockingOverlay, ha, hb, hy]
    · simp [getBlockingOverlay, ha, hb, hd]

/-- Witness for C1 (amended): in `stateFullEarly` (tracking started on day
-10) on day 0 both plans are satisfied and yesterday is incomplete, so the
previous-day gate fires for day -1. -/
theorem getBlockingOverlay_priority_witness :
    getBlockingOverlay stateFullEarly 0
      = some (.yesterday (addDays 0 (-1))) :=
  (getBlockingOverlay_priority stateFullEarly 0).2.2.1 (by decide) (by decide)
    (by decide) (by decide)

/-- Claim C6: with `dietException = yes`, `isDayComplete` requires none of
the five diet-rule answers nor the dessert/meal pass answers; it is then
equivalent to the weights requirement plus the lifting answer on planned
lifting days and the fast answer inside the planned fast window, and it is
invariant under changing the diet answers and the two pass answers. -/
theorem isDayComplete_dietException_yes (s : AppState) (day : DayRecord)
    (date : Int) (h : day.dietException = some Ans.yes) :
    (isDayComplete s day date = true ↔
      ((day.weightMorning.isSome || day.weightMorningMissed) = true
       ∧ (day.weightNight.isSome || day.weightNightMissed) = true
       ∧ (isLiftingDay s date = true → day.weightLiftingDone.isSome = true)
       ∧ (isFastDay s date = true → day.waterFastDone.isSome = true)))
    ∧ (∀ (diet' : DietChecks) (dp mp : YesNo),
        isDayComplete s
            { day with diet := diet', dessertPass := dp, mealPass := mp } date
          = isDayComplete s day date) := by
  constructor
  · have hbeq : (day.dietException == some Ans.yes) = true := by
      rw [h]
      decide
    simp only [isDayComplete, h, hbeq, Bool.not_true, Bool.not_false,
      Bool.false_or, Bool.true_or, Bool.true_and, Option.isSome_some,
      Bool.and_eq_true, Bool.or_eq_true, Bool.not_eq_true',
      Bool.eq_false_iff]
    tauto
  · intro diet' dp mp
    simp [isDayComplete, h]

/-- Witness for C6: `dayException` answers only the exception, the morning
weight and a missed night weigh-in, and on a day with no plans it counts as
complete. -/
theorem isDayComplete_dietException_yes_witness :
    isDayComplete (defaultState 0) dayException 5 = true :=
  ((isDayComplete_dietException_yes (defaultState 0) dayException 5 rfl).1).mpr
    (by decide)

/-- Claim C5: for a window of at least one day, `getRollingAverage` averages
the daily averages over exactly the `windowSize` calendar days ending at and
including the query date, skipping days with no average; it is `none` exactly
when no day of the window has one, and equals the single value when exactly
one day has one. -/
theorem getRollingAverage_window (s : AppState) (date : Int) (w : Nat)
    (hw : 1 ≤ w) :
    (∀ d : Int, d ∈ buildDateRange date w ↔ date - w + 1 ≤ d ∧ d ≤ date)
    ∧ (buildDateRange date w).length = w
    ∧ (getRollingAverage s date w = none ↔
        ∀ d ∈ buildDateRange date w, getDailyAverage (getDay s d) = none)
    ∧ (∀ L : List ℚ,
        L = (buildDateRange date w).filterMap
          (fun d => getDailyAverage (getDay s d)) →
        L ≠ [] →
        getRollingAverage s date w = some (L.sum / L.length))
    ∧ (∀ v : ℚ,
        (buildDateRange date w).filterMap
          (fun d => getDailyAverage (getDay s d)) = [v] →
        getRollingAverage s date w = some v) := by
  have hval : getRollingAverage s date w =
      if ((buildDateRange date w).filterMap
          (fun d => getDailyAverage (getDay s d))).isEmpty then none
      else some (((buildDateRange date w).filterMap
          (fun d => getDailyAverage (getDay s d))).foldl (· + ·) 0 /
        (((buildDateRange date w).filterMap
          (fun d => getDailyAverage (getDay s d))).length : ℚ)) := by
    simp only [getRollingAverage]
    rw [List.filterMap_map, Function.id_comp]
  have hmean : ∀ L : List ℚ,
      L = (buildDateRange date w).filterMap
        (fun d => getDailyAverage (getDay s d)) →
      L ≠ [] →
      getRollingAverage s date w = some (L.sum / L.length) := by
    intro L hL hne
    have hemp : ((buildDateRange date w).filterMap
        (fun d => getDailyAverage (getDay s d))).isEmpty = false := by
      rw [← hL]
      simpa [List.isEmpty_iff] using hne
    rw [hval, hemp, if_neg (by simp), ← hL]
    congr 1
    rw [foldl_add_eq_add_sum, zero_add]
  refine ⟨?_, ?_, ?_, hmean, ?_⟩
  · intro d
    simp only [buildDateRange, addDays, List.mem_map, List.mem_range]
    constructor
    · rintro ⟨i, hi, rfl⟩
      omega
    · intro hd
      refine ⟨(d - (date - ((w : Int) - 1))).toNat, ?_, ?_⟩ <;> omega
  · simp [buildDateRange]
  · constructor
    · intro hnone
      rw [← List.filterMap_eq_nil_iff]
      by_contra hne
      have hemp : ((buildDateRange date w).filterMap
          (fun d => getDailyAverage (getDay s d))).isEmpty = false := by
        simpa [List.isEmpty_iff] using hne
      rw [hval, hemp, if_neg (by simp)] at hnone
      cases hnone
    · intro hall
      rw [hval, List.filterMap_eq_nil_iff.mpr hall]
      rfl
  · intro v hv
    have h4 := hmean [v] hv.symm (by simp)
    rw [h4]
    simp

/-- Witness for C5: `stateOneWeight` has exactly one daily average (150, on
day 3) inside the 7-day window ending on day 5, so the rolling average is
that single value. -/
theorem getRollingAverage_window_witness :
    getRollingAverage stateOneWeight 5 7 = some 150 :=
  (getRollingAverage_window stateOneWeight 5 7 (by decide)).2.2.2.2 150
    (by decide)

/-- Claim C7: if exactly one recorded date `d0` in a given calendar week has
the queried pass field set to `yes`, then `getPassConflict` from any other
date of that week returns `d0`, from `d0` itself returns `none`; and in
general a conflict result always lies in the queried date's own week (so
recorded dates of other weeks never produce one), differs from the queried
date, and has the pass answered `yes`. -/
theorem getPassConflict_unique_week (s : AppState) (key : PassKey) (d0 : Int)
    (h0 : (alookup s.days d0).map (fun st => storedPass st key)
      = some (some Ans.yes))
    (huniq : ∀ d' ∈ s.days.map Prod.fst, getWeekKey d' = getWeekKey d0 →
      (alookup s.days d').map (fun st => storedPass st key)
        = some (some Ans.yes) → d' = d0) :
    (∀ q, getWeekKey q = getWeekKey d0 → q ≠ d0 →
      getPassConflict s q key = some d0)
    ∧ getPassConflict s d0 key = none
    ∧ (∀ q r, getPassConflict s q key = some r →
        r ≠ q ∧ getWeekKey r = getWeekKey q
        ∧ (alookup s.days r).map (fun st => storedPass st key)
          = some (some Ans.yes)) := by
  have hd0mem : d0 ∈ s.days.map Prod.fst := by
    rcases Option.map_eq_some'.mp h0 with ⟨st, hst, _⟩
    exact List.mem_map_of_mem Prod.fst (mem_of_alookup_eq_some hst)
  refine ⟨?_, ?_, ?_⟩
  · intro q hq hne
    apply find?_eq_some_of_unique _ _ _ hd0mem
    · simp only [Bool.and_eq_true, decide_eq_true_eq]
      exact ⟨⟨fun hh => hne hh.symm, hq.symm⟩, h0⟩
    · intro x hx hpx
      simp only [Bool.and_eq_true, decide_eq_true_eq] at hpx
      exact huniq x hx (hpx.1.2.trans hq) hpx.2
  · rw [getPassConflict, List.find?_eq_none]
    intro x hx
    simp only [Bool.and_eq_true, decide_eq_true_eq, not_and]
    intro hxd hxw
    exact absurd (huniq x hx hxd.2 hxw) hxd.1
  · intro q r hr
    have hp := List.find?_some hr
    simp only [Bool.and_eq_true, decide_eq_true_eq] at hp
    exact ⟨hp.1.1, hp.1.2, hp.2⟩

/-- Witness for C7: in `statePasses`, day 1 is the only `dessertPass = yes`
date in the week of Sunday -4 (day 5's `yes` lies in the next week), so
querying from day 2 returns day 1 and querying from day 1 returns none. -/
theorem getPassConflict_unique_week_witness :
    getPassConflict statePasses 2 .dessertPass = some 1
    ∧ getPassConflict statePasses 1 .dessertPass = none :=
  ⟨(getPassConflict_unique_week statePasses .dessertPass 1 (by decide)
      (by decide)).1 2 (by decide) (by decide),
   (getPassConflict_unique_week statePasses .dessertPass 1 (by decide)
      (by decide)).2.1⟩

theorem stateWeightInv_updateDay (s : AppState) (date : Int)
    (f : StoredDay → StoredDay) (hs : stateWeightInv s = true)
    (hf : ∀ st, weightInv st = true → weightInv (f st) = true) :
    stateWeightInv (updateDay s date f) = true := by
  rw [stateWeightInv, List.all_eq_true] at hs ⊢
  intro e he
  have he' : e ∈ aset s.days date
      (f ((alookup s.days date).getD (toStored (createEmptyDay date)))) := he
  rcases mem_aset he' with h | h
  · subst h
    apply hf
    rcases halo : alookup s.days date with _ | st
    · rfl
    · exact hs (date, st) (mem_of_alookup_eq_some halo)
  · exact hs e h

/-- Claim C9: the weight/missed mutual exclusion — a present weight value and
a set missed flag never coexist — holds of every freshly created day, is
preserved on every stored day by every day mutation, `setWeightValue` with a
defined value writes `false` into the missed flag, and `toggleWeightMissed`
turning the flag on writes a cleared weight value. -/
theorem weight_missed_exclusion :
    (∀ date, weightInv (toStored (createEmptyDay date)) = true)
    ∧ (∀ s date key value, stateWeightInv s = true →
        stateWeightInv (setWeightValue s date key value) = true)
    ∧ (∀ s date key, stateWeightInv s = true →
        stateWeightInv (toggleWeightMissed s date key) = true)
    ∧ (∀ s date key value, stateWeightInv s = true →
        stateWeightInv (setDietValue s date key value) = true)
    ∧ (∀ s date key value, stateWeightInv s = true →
        stateWeightInv (setDayValue s date key value) = true)
    ∧ (∀ s date key value, value.isSome = true →
        (alookup (setWeightValue s date key value).days date).map
          (fun st => storedMissed st key) = some (some false))
    ∧ (∀ s date key,
        (storedMissed ((alookup s.days date).getD
          (toStored (createEmptyDay date))) key).getD false = false →
        (alookup (toggleWeightMissed s date key).days date).map
          (fun st => storedWeight st key) = some (some none)) := by
  refine ⟨?_, ?_, ?_, ?_, ?_, ?_, ?_⟩
  · intro date
    rfl
  · intro s date key value hs
    apply stateWeightInv_updateDay _ _ _ hs
    intro st hstinv
    simp only [weightInv, Bool.and_eq_true] at hstinv ⊢
    cases key
    · refine ⟨?_, hstinv.2⟩
      cases value <;> simp
    · refine ⟨hstinv.1, ?_⟩
      cases value <;> simp
  · intro s date key hs
    apply stateWeightInv_updateDay _ _ _ hs
    intro st hstinv
    simp only [weightInv, Bool.and_eq_true] at hstinv ⊢
    cases key
    · refine ⟨?_, hstinv.2⟩
      cases hmm : st.weightMorningMissed.getD false <;> simp [hmm]
    · refine ⟨hstinv.1, ?_⟩
      cases hmm : st.weightNightMissed.getD false <;> simp [hmm]
  · intro s date key value hs
    apply stateWeightInv_updateDay _ _ _ hs
    intro st hstinv
    simpa [weightInv] using hstinv
  · intro s date key value hs
    apply stateWeightInv_updateDay _ _ _ hs
    intro st hstinv
    cases key <;> simpa [weightInv] using hstinv
  · intro s date key value hv
    cases key <;>
      simp [setWeightValue, updateDay, alookup_aset_self, storedMissed, hv]
  · intro s date key hm
    cases key <;>
      simp only [storedMissed] at hm <;>
      simp [toggleWeightMissed, updateDay, alookup_aset_self, storedWeight, hm]

/-- Witness for C9: logging a morning weight of 150 on day 0 of the default
state preserves the mutual-exclusion invariant. -/
theorem weight_missed_exclusion_witness :
    stateWeightInv (setWeightValue (defaultState 0) 0 .morning (some 150))
      = true :=
  weight_missed_exclusion.2.1 (defaultState 0) 0 .morning (some 150)
    (by decide)
